import Mathlib

/-!
Verification development for the Jira MCP integration server
(`src/mcp-server.ts`, with the related revisions `src/unnamed/part_001` and
`src/unnamed/part_002`).  The TypeScript source is shallowly embedded:

* dynamic JSON values become the inductive `Json`;
* `process.env` lookups become records of `Option String` fields, with JS
  truthiness (`""`/absent are falsy) modelled by `envTruthy`;
* fallible external operations (HTTP requests, `git` subprocess calls,
  `JSON.parse`) become oracle functions returning `Except`/`Option` values;
* each `try { .. } catch { .. }` in the source becomes `tryCatchE`.

Scope notes recorded once here: strings are modelled as sequences of
characters (`String.length` counts characters where JS `.length` counts
UTF-16 code units; the two agree on the basic-multilingual-plane text the
program handles), `toLowerCase` is modelled on ASCII and the Cyrillic range
used by the transliteration table, and JSON numbers are modelled as integers
(the payload fields the program reads -- `key`, `id`, `name`, transition ids
-- are strings or integral ids).
-/

/-- JS truthiness of an optional environment-variable value: absent and `""`
are falsy, every other string is truthy. -/
def envTruthy : Option String → Option String
  | some s => if s = "" then none else some s
  | none => none

/-- JS `a || b` on environment-variable values: `a` if truthy, else `b`. -/
def jsOrEnv (a b : Option String) : Option String :=
  match envTruthy a with
  | some s => some s
  | none => b

/-- A whitespace character for the purposes of `trim`. -/
def isWsChar (c : Char) : Bool :=
  c = ' ' || c = '\t' || c = '\n' || c = '\r' || c = Char.ofNat 12 || c = Char.ofNat 11

/-- JS `s.trim()`: strip whitespace from both ends (executable model of
`String.trim`). -/
def jsTrim (s : String) : String :=
  String.mk (((s.data.dropWhile isWsChar).reverse.dropWhile isWsChar).reverse)

/-- An optional string that is absent or blank after trimming (the source's
`!x || x.trim() === ""` test). -/
def blankOpt : Option String → Bool
  | none => true
  | some s => jsTrim s = ""

def isUpperChar (c : Char) : Bool := 'A' ≤ c && c ≤ 'Z'

def isLowerChar (c : Char) : Bool := 'a' ≤ c && c ≤ 'z'

def isDigitChar (c : Char) : Bool := '0' ≤ c && c ≤ '9'

/-- A character kept by the sanitizer: `[a-z0-9]`. -/
def isLowerAlnum (c : Char) : Bool := isLowerChar c || isDigitChar c

/-- `toLowerCase`, modelled on ASCII letters and the Cyrillic letters the
transliteration table covers (`А`–`Я`, `Ё`, and the Ukrainian letters). -/
def jsToLowerChar (c : Char) : Char :=
  if isUpperChar c then Char.ofNat (c.toNat + 32)
  else if 'А' ≤ c && c ≤ 'Я' then Char.ofNat (c.toNat + 32)
  else if c = 'Ё' then 'ё'
  else if c = 'І' then 'і'
  else if c = 'Ї' then 'ї'
  else if c = 'Є' then 'є'
  else if c = 'Ґ' then 'ґ'
  else c

def jsToLowerStr (s : String) : String := String.mk (s.data.map jsToLowerChar)

/-- `needle.isPrefixOf`-based substring test: JS `hay.includes(needle)`. -/
def containsSub (n : List Char) : List Char → Bool
  | [] => n.isEmpty
  | c :: t => n.isPrefixOf (c :: t) || containsSub n t

def strContains (hay needle : String) : Bool := containsSub needle.data hay.data

/-- Dynamic JSON values (the `unknown`/`any` values the server manipulates).
Numbers are modelled as integers; see the header note. -/
inductive Json where
  | null : Json
  | bool : Bool → Json
  | num : Int → Json
  | str : String → Json
  | arr : List Json → Json
  | obj : List (String × Json) → Json

/-- First binding of a key in an object's field list.  (JS objects cannot
hold duplicate keys; `JSON.parse` keeps the last duplicate, a case that does
not arise for the payloads modelled here.) -/
def lookupField : List (String × Json) → String → Option Json
  | [], _ => none
  | (k2, v) :: rest, k => if k2 = k then some v else lookupField rest k

/-- JS optional property access `j?.k`: `none` models `undefined` (absent
key, or access on a non-object). -/
def getField (j : Json) (k : String) : Option Json :=
  match j with
  | Json.obj fs => lookupField fs k
  | _ => none

/-- JS truthiness of a JSON value. -/
def jsTruthy : Json → Bool
  | Json.null => false
  | Json.bool b => b
  | Json.num n => n ≠ 0
  | Json.str s => s ≠ ""
  | Json.arr _ => true
  | Json.obj _ => true

/-- Truthiness of an optional (possibly `undefined`) value. -/
def jsTruthyOpt : Option Json → Bool
  | some v => jsTruthy v
  | none => false

/-- `j?.k` is truthy. -/
def jsTruthyField (j : Json) (k : String) : Bool := jsTruthyOpt (getField j k)

/-- The value of a JS `a || b || ... || null` chain: the first truthy
candidate, `none` when all are falsy. -/
def chainTruthy : List (Option Json) → Option Json
  | [] => none
  | o :: rest =>
    match o with
    | some v => if jsTruthy v then some v else chainTruthy rest
    | none => chainTruthy rest

/-- JSON whitespace skip. -/
def skipWs (l : List Char) : List Char :=
  l.dropWhile (fun c => c = ' ' || c = '\n' || c = '\t' || c = '\r')

def hexVal? (c : Char) : Option Nat :=
  let n := c.toNat
  if 48 ≤ n && n ≤ 57 then some (n - 48)
  else if 97 ≤ n && n ≤ 102 then some (n - 87)
  else if 65 ≤ n && n ≤ 70 then some (n - 55)
  else none

/-- JSON string-literal body (after the opening quote), with the standard
escapes. -/
def parseStrAux : Nat → List Char → List Char → Option (String × List Char)
  | 0, _, _ => none
  | _ + 1, acc, '"' :: rest => some (String.mk acc.reverse, rest)
  | f + 1, acc, '\\' :: e :: rest =>
    match e with
    | '"' => parseStrAux f ('"' :: acc) rest
    | '\\' => parseStrAux f ('\\' :: acc) rest
    | '/' => parseStrAux f ('/' :: acc) rest
    | 'n' => parseStrAux f ('\n' :: acc) rest
    | 't' => parseStrAux f ('\t' :: acc) rest
    | 'r' => parseStrAux f ('\r' :: acc) rest
    | 'b' => parseStrAux f (Char.ofNat 8 :: acc) rest
    | 'f' => parseStrAux f (Char.ofNat 12 :: acc) rest
    | 'u' =>
      match rest with
      | h1 :: h2 :: h3 :: h4 :: rest2 =>
        match hexVal? h1, hexVal? h2, hexVal? h3, hexVal? h4 with
        | some a, some b, some c, some d =>
          parseStrAux f (Char.ofNat (((a * 16 + b) * 16 + c) * 16 + d) :: acc) rest2
        | _, _, _, _ => none
      | _ => none
    | _ => none
  | f + 1, acc, c :: rest => parseStrAux f (c :: acc) rest
  | _ + 1, _, [] => none

def digitsToNat (ds : List Char) : Nat :=
  ds.foldl (fun n c => n * 10 + (c.toNat - '0'.toNat)) 0

/-- JSON number: optional minus then digits.  Fractions/exponents are out of
the modelled fragment and fail the parse (see header note). -/
def parseNum (l : List Char) : Option (Json × List Char) :=
  let (neg, l2) := match l with
    | '-' :: t => (true, t)
    | _ => (false, l)
  let ds := l2.takeWhile isDigitChar
  let rest := l2.dropWhile isDigitChar
  if ds.isEmpty then none
  else match rest with
    | '.' :: _ => none
    | 'e' :: _ => none
    | 'E' :: _ => none
    | _ =>
      let n : Int := Int.ofNat (digitsToNat ds)
      some (Json.num (if neg then -n else n), rest)

mutual

/-- Fuel-based recursive-descent JSON value parser. -/
def parseVal : Nat → List Char → Option (Json × List Char)
  | 0, _ => none
  | f + 1, l =>
    match skipWs l with
    | [] => none
    | '"' :: rest =>
      match parseStrAux (rest.length + 1) [] rest with
      | some (s, rest2) => some (Json.str s, rest2)
      | none => none
    | '{' :: rest => parseObjFields f (skipWs rest) true
    | '[' :: rest => parseArrElems f (skipWs rest) true
    | 't' :: rest =>
      if ['r', 'u', 'e'].isPrefixOf rest then some (Json.bool true, rest.drop 3) else none
    | 'f' :: rest =>
      if ['a', 'l', 's', 'e'].isPrefixOf rest then some (Json.bool false, rest.drop 4) else none
    | 'n' :: rest =>
      if ['u', 'l', 'l'].isPrefixOf rest then some (Json.null, rest.drop 3) else none
    | l2 => parseNum l2

/-- Array elements after `[` (`first` marks the position before the first
element, where `]` closes an empty array). -/
def parseArrElems : Nat → List Char → Bool → Option (Json × List Char)
  | 0, _, _ => none
  | _ + 1, ']' :: rest, true => some (Json.arr [], rest)
  | f + 1, l, _ =>
    match parseVal f l with
    | none => none
    | some (v, rest) =>
      match skipWs rest with
      | ',' :: rest2 =>
        match parseArrElems f (skipWs rest2) false with
        | some (Json.arr vs, rest3) => some (Json.arr (v :: vs), rest3)
        | _ => none
      | ']' :: rest2 => some (Json.arr [v], rest2)
      | _ => none

/-- Object members after an opening brace. -/
def parseObjFields : Nat → List Char → Bool → Option (Json × List Char)
  | 0, _, _ => none
  | _ + 1, '}' :: rest, true => some (Json.obj [], rest)
  | f + 1, l, _ =>
    match l with
    | '"' :: rest =>
      match parseStrAux (rest.length + 1) [] rest with
      | none => none
      | some (k, rest2) =>
        match skipWs rest2 with
        | ':' :: rest3 =>
          match parseVal f (skipWs rest3) with
          | none => none
          | some (v, rest4) =>
            match skipWs rest4 with
            | ',' :: rest5 =>
              match parseObjFields f (skipWs rest5) false with
              | some (Json.obj fs, rest6) => some (Json.obj ((k, v) :: fs), rest6)
              | _ => none
            | '}' :: rest5 => some (Json.obj [(k, v)], rest5)
            | _ => none
        | _ => none
    | _ => none

end

/-- `JSON.parse`: parse a complete JSON document, requiring full consumption
of the input. -/
def jsonParse (s : String) : Option Json :=
  match parseVal (s.length + 2) s.data with
  | some (j, rest) => if (skipWs rest).isEmpty then some j else none
  | none => none

example : jsonParse "\x7b\"key\":\"OPS-7\"\x7d" = some (Json.obj [("key", Json.str "OPS-7")]) := by
  rfl

example : jsonParse " [1, -2, true, null] " =
    some (Json.arr [Json.num 1, Json.num (-2), Json.bool true, Json.null]) := by
  rfl

example : jsonParse "OPS-1 created" = none := by rfl

/-! ## Branch-name sanitization (`sanitizeBranchName`, src/mcp-server.ts lines 52-59) -/

/-- The global replace `/[^a-z0-9]+/g → "-"`: every maximal run of characters
outside `[a-z0-9]` collapses to a single hyphen.  The flag records whether the
previous character was part of such a run. -/
def collapseAux : Bool → List Char → List Char
  | _, [] => []
  | inRun, c :: rest =>
    if isLowerAlnum c then c :: collapseAux false rest
    else if inRun then collapseAux true rest
    else '-' :: collapseAux true rest

def collapseNonAlnum (l : List Char) : List Char := collapseAux false l

/-- The trim of leading hyphens (regex anchor `^-+`). -/
def trimLeadHyphens (l : List Char) : List Char := l.dropWhile (fun c => c = '-')

/-- The trim of trailing hyphens (regex anchor `-+$`), computed as a prefix
of the input. -/
def trimTrailHyphens : List Char → List Char
  | [] => []
  | c :: rest =>
    match trimTrailHyphens rest with
    | [] => if c = '-' then [] else [c]
    | r => c :: r

/-- `sanitizeBranchName` (src/mcp-server.ts lines 52-59, identical in
src/unnamed/part_002): lower-case, collapse non-`[a-z0-9]` runs to single
hyphens, trim leading/trailing hyphens, truncate to 100 characters. -/
def sanitizeBranchName (name : String) : String :=
  String.mk
    (List.take 100
      (trimTrailHyphens (trimLeadHyphens (collapseNonAlnum (name.data.map jsToLowerChar)))))

/-! ## Transliteration (`transliterateToEnglish`, src/unnamed/part_001 lines 49-72) -/

/-- The fixed character-substitution table of `transliterateToEnglish`,
verbatim from src/unnamed/part_001. -/
def transliterationMap : List (Char × String) :=
  [ ('а', "a"), ('б', "b"), ('в', "v"), ('г', "h"), ('ґ', "g"), ('д', "d"), ('е', "e"),
    ('є', "ie"), ('ж', "zh"), ('з', "z"), ('и', "y"), ('і', "i"), ('ї', "i"), ('й', "i"),
    ('к', "k"), ('л', "l"), ('м', "m"), ('н', "n"), ('о', "o"), ('п', "p"), ('р', "r"),
    ('с', "s"), ('т', "t"), ('у', "u"), ('ф', "f"), ('х', "kh"), ('ц', "ts"), ('ч', "ch"),
    ('ш', "sh"), ('щ', "shch"), ('ь', ""), ('ю', "iu"), ('я', "ia"),
    ('А', "A"), ('Б', "B"), ('В', "V"), ('Г', "H"), ('Ґ', "G"), ('Д', "D"), ('Е', "E"),
    ('Є', "IE"), ('Ж', "ZH"), ('З', "Z"), ('И', "Y"), ('І', "I"), ('Ї', "I"), ('Й', "I"),
    ('К', "K"), ('Л', "L"), ('М', "M"), ('Н', "N"), ('О', "O"), ('П', "P"), ('Р', "R"),
    ('С', "S"), ('Т', "T"), ('У', "U"), ('Ф', "F"), ('Х', "KH"), ('Ц', "TS"), ('Ч', "CH"),
    ('Ш', "SH"), ('Щ', "SHCH"), ('Ь', ""), ('Ю', "IU"), ('Я', "IA"),
    ('ы', "y"), ('э', "e"), ('ъ', ""), ('ё', "e"),
    ('Ы', "Y"), ('Э', "E"), ('Ъ', ""), ('Ё', "E") ]

def translitChar (c : Char) : Option String := transliterationMap.lookup c

/-- The image of one character under the table:
`transliterationMap[char] || char`. -/
def translitOut (c : Char) : String :=
  match translitChar c with
  | some t => t
  | none => String.mk [c]

/-- `transliterateToEnglish`: map each character through the table and
concatenate. -/
def transliterateToEnglish (text : String) : String :=
  String.mk ((text.data.map (fun c => (translitOut c).data)).flatten)

/-- `sanitizeBranchName` of src/unnamed/part_001 (lines 74-84): transliterate
first, then the same lower-case / collapse / trim / truncate pipeline. -/
def sanitizeBranchNameTranslit (name : String) : String :=
  sanitizeBranchName (transliterateToEnglish name)

example : sanitizeBranchName "Fix Login Bug!" = "fix-login-bug" := by rfl
example : sanitizeBranchName "щ1" = "1" := by rfl
example : sanitizeBranchNameTranslit "щ1" = "shch1" := by rfl
example : sanitizeBranchNameTranslit "Баг123" = "bah123" := by rfl


/-! ## Issue-key extraction (`handleCreateResponse`, src/mcp-server.ts lines 260-325) -/

/-- Match the regex `[A-Z]+-[0-9]+` anchored at the head of `l`: a nonempty
run of uppercase letters, a hyphen, a nonempty run of digits (both runs
greedy; nothing in the pattern forces backtracking). -/
def matchKeyAt (l : List Char) : Option (List Char) :=
  let us := l.takeWhile isUpperChar
  if us.isEmpty then none
  else
    match l.dropWhile isUpperChar with
    | c :: rest2 =>
      if c = '-' then
        let ds := rest2.takeWhile isDigitChar
        if ds.isEmpty then none else some (us ++ c :: ds)
      else none
    | [] => none

/-- Leftmost match of `[A-Z]+-[0-9]+` in a character list. -/
def searchKeyAux : List Char → Option (List Char)
  | [] => none
  | c :: cs =>
    match matchKeyAt (c :: cs) with
    | some m => some m
    | none => searchKeyAux cs

/-- The source's `text.match(new RegExp pattern)` fallback: first substring
matching `[A-Z]+-[0-9]+`. -/
def firstKeyMatch (s : String) : Option String := (searchKeyAux s.data).map String.mk

/-- A string that matches `[A-Z]+-[0-9]+` in full. -/
def isIssueKey (s : String) : Bool :=
  let us := s.data.takeWhile isUpperChar
  match s.data.dropWhile isUpperChar with
  | c :: ds => c = '-' && !us.isEmpty && !ds.isEmpty && ds.all isDigitChar
  | [] => false

/-- `item.type === "text"`. -/
def isTextBlockType (item : Json) : Bool :=
  match getField item "type" with
  | some (Json.str t) => t = "text"
  | _ => false

/-- `parsed?.key || parsed?.fields?.key || parsed?.id || null`. -/
def extractKeyFromParsed (parsed : Json) : Option Json :=
  chainTruthy
    [ getField parsed "key",
      (getField parsed "fields").bind (fun f => getField f "key"),
      getField parsed "id" ]

/-- The content-block scan of `handleCreateResponse`.  A truthy non-string
`text` that is an array or object models the JS path where `JSON.parse` of
its string coercion fails and the subsequent `.match` call raises a
`TypeError` that the function's outer catch absorbs, ending the scan with the
still-null key (arrays whose string coercion happens to be parseable JSON are
out of the modelled fragment). -/
def scanBlocks : List Json → Option Json
  | [] => none
  | item :: rest =>
    if isTextBlockType item && jsTruthyField item "text" then
      match getField item "text" with
      | some (Json.str s) =>
        (match jsonParse s with
         | some parsed =>
           (match extractKeyFromParsed parsed with
            | some v => some v
            | none => scanBlocks rest)
         | none =>
           (match firstKeyMatch s with
            | some k => some (Json.str k)
            | none => scanBlocks rest))
      | some (Json.num _) => scanBlocks rest
      | some (Json.bool _) => scanBlocks rest
      | some _ => none
      | none => scanBlocks rest
    else scanBlocks rest

/-- `handleCreateResponse` (src/mcp-server.ts lines 260-325, identical in
src/unnamed/part_002): extract an issue key from a tool result.  The
function's branch-creation side effect does not alter the returned key (the
branch functions never throw; see the theorems for claim C2) and is modelled
separately. -/
def handleCreateResponse (res : Json) : Option Json :=
  let responseObj :=
    match res with
    | Json.str s =>
      (match jsonParse s with
       | some j => j
       | none => Json.str s)
    | _ => res
  if jsTruthyField responseObj "isError" || jsTruthyField responseObj "error" then none
  else
    match getField responseObj "content" with
    | some (Json.arr items) => scanBlocks items
    | _ =>
      chainTruthy
        [ getField responseObj "key",
          (getField responseObj "fields").bind (fun f => getField f "key"),
          getField responseObj "id",
          getField responseObj "issueKey" ]

/-- Spec-side description of the per-block extraction (claim C3): JSON-parse
the block's text and read `key`, then `fields.key`, then `id`; when the text
is not JSON, fall back to the first `[A-Z]+-[0-9]+` match. -/
def specExtractBlockText (s : String) : Option Json :=
  match jsonParse s with
  | some parsed =>
    chainTruthy
      [ getField parsed "key",
        (getField parsed "fields").bind (fun f => getField f "key"),
        getField parsed "id" ]
  | none => (firstKeyMatch s).map Json.str

/-- Spec-side block scan: first success across text blocks, in order. -/
def specScanBlocks : List Json → Option Json
  | [] => none
  | item :: rest =>
    if isTextBlockType item && jsTruthyField item "text" then
      match getField item "text" with
      | some (Json.str s) =>
        (match specExtractBlockText s with
         | some v => some v
         | none => specScanBlocks rest)
      | _ => specScanBlocks rest
    else specScanBlocks rest

/-- Spec-side issue-key extraction, following claim C3's wording: null on an
error flag; the block scan for content-block lists; otherwise `key`, then
`fields.key`, then `id`, then `issueKey`. -/
def specExtractIssueKey (res : Json) : Option Json :=
  if jsTruthyField res "isError" || jsTruthyField res "error" then none
  else
    match getField res "content" with
    | some (Json.arr items) => specScanBlocks items
    | _ =>
      chainTruthy
        [ getField res "key",
          (getField res "fields").bind (fun f => getField f "key"),
          getField res "id",
          getField res "issueKey" ]

/-- A content block whose `text` field, when truthy, is a string. -/
def blockWF (item : Json) : Bool :=
  match getField item "text" with
  | none => true
  | some (Json.str _) => true
  | some v => !jsTruthy v

/-- A well-formed tool result: an object whose `content` list, if any,
consists of blocks with string (or falsy) `text` fields. -/
def resWF (res : Json) : Bool :=
  match res with
  | Json.obj _ =>
    (match getField res "content" with
     | some (Json.arr items) => items.all blockWF
     | _ => true)
  | _ => false

example :
    handleCreateResponse
      (Json.obj [("content",
        Json.arr [Json.obj [("type", Json.str "text"), ("text", Json.str "\x7b\"key\":\"OPS-7\"\x7d")]])])
      = some (Json.str "OPS-7") := by rfl
example : handleCreateResponse (Json.obj [("key", Json.str "OPS-9")]) = some (Json.str "OPS-9") := by rfl
example : handleCreateResponse (Json.obj [("isError", Json.bool true)]) = none := by rfl
example : handleCreateResponse (Json.obj [("key", Json.str "hello")]) = some (Json.str "hello") := by rfl
example : firstKeyMatch "Created OPS-12 ok" = some "OPS-12" := by rfl
example : isIssueKey "hello" = false := by rfl

/-! ## Base64 (Node `Buffer.from(..).toString("base64")`) -/

def base64Alphabet : List Char :=
  "ABCDEFGHIJKLMNOPQRSTUVWXYZabcdefghijklmnopqrstuvwxyz0123456789+/".data

def b64Char (n : Nat) : Char := base64Alphabet.getD n 'A'

def base64EncodeBytes : List Nat → List Char
  | b1 :: b2 :: b3 :: rest =>
    b64Char (b1 / 4) :: b64Char ((b1 % 4) * 16 + b2 / 16) ::
      b64Char ((b2 % 16) * 4 + b3 / 64) :: b64Char (b3 % 64) :: base64EncodeBytes rest
  | [b1, b2] => [b64Char (b1 / 4), b64Char ((b1 % 4) * 16 + b2 / 16), b64Char ((b2 % 16) * 4), '=']
  | [b1] => [b64Char (b1 / 4), b64Char ((b1 % 4) * 16), '=', '=']
  | [] => []

/-- UTF-8 encoding of one character. -/
def utf8Bytes (c : Char) : List Nat :=
  let n := c.toNat
  if n < 128 then [n]
  else if n < 2048 then [192 + n / 64, 128 + n % 64]
  else if n < 65536 then [224 + n / 4096, 128 + (n / 64) % 64, 128 + n % 64]
  else [240 + n / 262144, 128 + (n / 4096) % 64, 128 + (n / 64) % 64, 128 + n % 64]

/-- Base64 of a string's UTF-8 bytes. -/
def base64Encode (s : String) : String :=
  String.mk (base64EncodeBytes (s.data.map utf8Bytes).flatten)

example : base64Encode "Aladdin:open sesame" = "QWxhZGRpbjpvcGVuIHNlc2FtZQ==" := by rfl

/-! ## URL splitting (`new URL(..)`, the parts the server reads) -/

structure UrlParts where
  protocol : String
  hostname : String
  port : String
  pathname : String

def strEndsWith (s suffixStr : String) : Bool := suffixStr.data.isSuffixOf s.data

/-- The `protocol`/`hostname`/`port`/`pathname` of a URL (an empty `port`
models an unspecified one; `pathname` defaults to `/` as in the URL
standard).  Inputs that would make `new URL` throw are outside the modelled
fragment. -/
def parseUrl (u : String) : UrlParts :=
  let (proto, rest) :=
    if "https://".isPrefixOf u then ("https:", u.drop 8)
    else if "http://".isPrefixOf u then ("http:", u.drop 7)
    else ("https:", u)
  let hostport := rest.takeWhile (fun c => c ≠ '/')
  let path0 := rest.drop hostport.length
  let hostname := hostport.takeWhile (fun c => c ≠ ':')
  { protocol := proto,
    hostname := hostname,
    port := if hostname.length = hostport.length then "" else hostport.drop (hostname.length + 1),
    pathname := if path0 = "" then "/" else path0 }

/-! ## Direct API adapter (`callJiraDataCenterAPI`, src/unnamed/part_002 lines 252-321) -/

/-- The HTTPS request options the server passes to `https.request`, plus the
written body. -/
structure HttpReq where
  hostname : String
  port : String
  path : String
  method : String
  authorization : String
  body : Option Json

/-- The environment variables `callJiraDataCenterAPI` reads. -/
structure DCEnv where
  jiraBaseUrl : Option String
  jiraApiToken : Option String
  jiraPersonalAccessToken : Option String
  jiraUsername : Option String
  jiraEmail : Option String

/-- `process.env.JIRA_EMAIL || process.env.JIRA_USERNAME || username` where
`username = process.env.JIRA_USERNAME || process.env.JIRA_EMAIL`. -/
def dcAuthUsername (env : DCEnv) : Option String :=
  jsOrEnv env.jiraEmail (jsOrEnv env.jiraUsername (jsOrEnv env.jiraUsername env.jiraEmail))

/-- An environment value in canonical form: absent, or non-blank with no
surrounding whitespace. -/
def normOptStr : Option String → Bool
  | none => true
  | some s => jsTrim s = s && s ≠ ""

def dcEnvNormalized (env : DCEnv) : Bool :=
  normOptStr env.jiraBaseUrl && normOptStr env.jiraApiToken &&
    normOptStr env.jiraPersonalAccessToken && normOptStr env.jiraUsername &&
    normOptStr env.jiraEmail

/-- Response normalization of `callJiraDataCenterAPI` (src/unnamed/part_002
lines 306-320): an HTTP failure propagates; an empty or non-JSON 2xx body
becomes `{}`. -/
def dcNormalizeResponse (r : Except String String) : Except String Json :=
  match r with
  | Except.error e => Except.error e
  | Except.ok response =>
    if jsTrim response = "" then Except.ok (Json.obj [])
    else
      match jsonParse response with
      | some j => Except.ok j
      | none => Except.ok (Json.obj [])

/-- `callJiraDataCenterAPI`: resolve configuration and authentication, issue
one HTTPS request, and normalize the response (empty or non-JSON bodies of
2xx responses become `{}`).  The first component lists the requests actually
issued; configuration errors return before any request. -/
def callJiraDataCenterAPI (env : DCEnv) (endpoint : String) (method : String)
    (body : Option Json) (http : HttpReq → Except String String) :
    List HttpReq × Except String Json :=
  let token? := jsOrEnv env.jiraApiToken env.jiraPersonalAccessToken
  let username? := jsOrEnv env.jiraUsername env.jiraEmail
  match env.jiraBaseUrl with
  | none => ([], Except.error "JIRA_BASE_URL is required for Data Center")
  | some baseUrl =>
    if jsTrim baseUrl = "" then ([], Except.error "JIRA_BASE_URL is required for Data Center")
    else
      match token? with
      | none => ([], Except.error "JIRA_API_TOKEN or JIRA_PERSONAL_ACCESS_TOKEN is required for Data Center. Please set one of these environment variables with your API token.")
      | some token =>
        if jsTrim token = "" then ([], Except.error "JIRA_API_TOKEN or JIRA_PERSONAL_ACCESS_TOKEN is required for Data Center. Please set one of these environment variables with your API token.")
        else
          let isPersonalAccessToken :=
            (envTruthy env.jiraPersonalAccessToken).isSome && (envTruthy env.jiraApiToken).isNone
          if !isPersonalAccessToken && blankOpt username? then
            ([], Except.error "JIRA_USERNAME or JIRA_EMAIL is required for Data Center authentication when using API Token. For Personal Access Token, only JIRA_PERSONAL_ACCESS_TOKEN is needed.")
          else
            let url := parseUrl baseUrl
            let apiPath :=
              if "/rest/api".isPrefixOf endpoint then endpoint else "/rest/api/2/" ++ endpoint
            let fullPath :=
              if strEndsWith url.pathname "/" then url.pathname.dropRight 1 ++ apiPath
              else url.pathname ++ apiPath
            let authHeader? : Except String String :=
              if (envTruthy env.jiraPersonalAccessToken).isSome && token ≠ "" &&
                  (envTruthy env.jiraApiToken).isNone then
                Except.ok ("Bearer " ++ jsTrim token)
              else
                match dcAuthUsername env with
                | some au =>
                  if au ≠ "" && token ≠ "" then
                    Except.ok ("Basic " ++ base64Encode (jsTrim au ++ ":" ++ jsTrim token))
                  else Except.error "Unable to determine authentication method. Please set JIRA_PERSONAL_ACCESS_TOKEN or JIRA_API_TOKEN with JIRA_USERNAME/JIRA_EMAIL."
                | none => Except.error "Unable to determine authentication method. Please set JIRA_PERSONAL_ACCESS_TOKEN or JIRA_API_TOKEN with JIRA_USERNAME/JIRA_EMAIL."
            match authHeader? with
            | Except.error e => ([], Except.error e)
            | Except.ok authHeader =>
              let req : HttpReq :=
                { hostname := url.hostname,
                  port := if url.port ≠ "" then url.port
                    else if url.protocol = "https:" then "443" else "80",
                  path := fullPath,
                  method := method,
                  authorization := authHeader,
                  body := body }
              ([req], dcNormalizeResponse (http req))

/-! ## Branch automation (src/mcp-server.ts lines 80-258) -/

/-- A `try { x } catch (e) { h e }` block over `Except`-modelled effects. -/
def tryCatchE {α : Type} (x : Except String α) (h : String → Except String α) :
    Except String α :=
  match x with
  | Except.ok a => Except.ok a
  | Except.error e => h e

/-- Discard the value of a fallible step (`await` used for effect only). -/
def discardE (x : Except String String) : Except String Unit :=
  match x with
  | Except.ok _ => Except.ok ()
  | Except.error e => Except.error e

/-- The environment variables the branch-automation functions read. -/
structure GitEnv where
  githubToken : Option String
  githubRepo : Option String
  githubDefaultBranch : Option String
  gitlabDefaultBranch : Option String

/-- One pass of `replace` removing a leading slash and a trailing slash or
trailing `.git` (the source's global alternation anchored at both ends). -/
def stripRepoPath (p : String) : String :=
  let p1 := if "/".isPrefixOf p then p.drop 1 else p
  if strEndsWith p1 "/" then p1.dropRight 1
  else if strEndsWith p1 ".git" then p1.dropRight 4
  else p1

/-- `parseGitHubRepo` (src/mcp-server.ts lines 102-132): accept `owner/repo`
or a GitHub URL, returning owner and repository name. -/
def parseGitHubRepo (repo : String) : Option (String × String) :=
  let repoPath := jsTrim repo
  let repoPath :=
    if "http://".isPrefixOf repoPath || "https://".isPrefixOf repoPath then
      stripRepoPath (parseUrl repoPath).pathname
    else repoPath
  let repoPath := if strEndsWith repoPath ".git" then repoPath.dropRight 4 else repoPath
  match (repoPath.splitOn "/").filter (fun p => p ≠ "") with
  | owner :: repoName :: _ => some (owner, repoName)
  | _ => none

/-- `getDefaultBranchSha` (src/mcp-server.ts lines 80-100): read the default
branch's ref from the hosting API and extract `data.object.sha`; a missing or
null `object` is the JS `TypeError` path, modelled as an error. -/
def getDefaultBranchSha (repo branch token : String)
    (http : HttpReq → Except String String) : Except String (Option Json) :=
  match repo.splitOn "/" with
  | owner :: repoName :: _ =>
    if owner = "" || repoName = "" then
      Except.error ("Invalid GITHUB_REPO format. Expected \"owner/repo\", got: " ++ repo)
    else
      match http { hostname := "api.github.com", port := "443",
                   path := "/repos/" ++ owner ++ "/" ++ repoName ++ "/git/ref/heads/" ++ branch,
                   method := "GET", authorization := "token " ++ token, body := none } with
      | Except.error e => Except.error e
      | Except.ok response =>
        match jsonParse response with
        | none => Except.error "SyntaxError: response is not JSON"
        | some data =>
          match getField data "object" with
          | none => Except.error "TypeError: data.object is undefined"
          | some Json.null => Except.error "TypeError: data.object is null"
          | some objectVal => Except.ok (getField objectVal "sha")
  | _ => Except.error ("Invalid GITHUB_REPO format. Expected \"owner/repo\", got: " ++ repo)

/-- The branch name used by the automation: the sanitized custom name when a
non-blank one is supplied, else the lower-cased issue key. -/
def branchNameOf (issueKey : String) (customBranchName : Option String) : String :=
  match customBranchName with
  | some c => if jsTrim c ≠ "" then sanitizeBranchName (jsTrim c) else jsToLowerStr issueKey
  | none => jsToLowerStr issueKey

/-- `createGitHubBranch` (src/mcp-server.ts lines 134-180): remote-API
strategy; every failure inside the `try` is swallowed. -/
def createGitHubBranch (env : GitEnv) (issueKey : String) (customBranchName : Option String)
    (http : HttpReq → Except String String) : Except String Unit :=
  match envTruthy env.githubToken, envTruthy env.githubRepo with
  | some githubToken, some githubRepo =>
    (match parseGitHubRepo githubRepo with
     | none => Except.ok ()
     | some (owner, repoName) =>
       tryCatchE
         (let branchName := branchNameOf issueKey customBranchName
          let defaultBranch := (envTruthy env.githubDefaultBranch).getD "main"
          match getDefaultBranchSha (owner ++ "/" ++ repoName) defaultBranch githubToken http with
          | Except.error e => Except.error e
          | Except.ok sha =>
            discardE (http
              { hostname := "api.github.com", port := "443",
                path := "/repos/" ++ owner ++ "/" ++ repoName ++ "/git/refs",
                method := "POST", authorization := "token " ++ githubToken,
                body := some (Json.obj
                  ([("ref", Json.str ("refs/heads/" ++ branchName))] ++
                    (match sha with
                     | some v => [("sha", v)]
                     | none => []))) }))
         (fun _ => Except.ok ()))
  | _, _ => Except.ok ()

/-- `branchExists` (src/mcp-server.ts lines 182-189): `git branch --list`
with a non-empty trimmed stdout; its own failures yield `false`. -/
def branchExists (exec : String → Except String String) (branchName : String) : Bool :=
  match exec ("git branch --list " ++ branchName) with
  | Except.ok out => decide (0 < (jsTrim out).length)
  | Except.error _ => false

/-- `createGitLabBranch` (src/mcp-server.ts lines 191-258): local-git
strategy; `fs` models `existsSync`, `exec` models `execAsync` run in `cwd`.
Each step is individually wrapped, and two outer catches enclose the whole
procedure. -/
def createGitLabBranch (cwd : String) (env : GitEnv) (fs : String → Bool)
    (exec : String → Except String String) (issueKey : String)
    (customBranchName : Option String) : Except String Unit :=
  if !fs cwd then Except.ok ()
  else if !fs (cwd ++ "/.git") then Except.ok ()
  else
    tryCatchE
      (let branchName := branchNameOf issueKey customBranchName
       let defaultBranch :=
         (envTruthy env.gitlabDefaultBranch).getD
           ((envTruthy env.githubDefaultBranch).getD "master")
       tryCatchE
         (do
           tryCatchE (discardE (exec "git fetch origin")) (fun _ => Except.ok ())
           tryCatchE (discardE (exec ("git checkout " ++ defaultBranch)))
             (fun _ =>
               tryCatchE (discardE (exec ("git checkout -b " ++ defaultBranch)))
                 (fun _ => Except.ok ()))
           tryCatchE (discardE (exec ("git pull origin " ++ defaultBranch)))
             (fun _ => Except.ok ())
           if branchExists exec branchName then
             tryCatchE (discardE (exec ("git checkout " ++ branchName)))
               (fun _ => Except.ok ())
           else
             tryCatchE (discardE (exec ("git checkout -b " ++ branchName)))
               (fun _ => Except.ok ()))
         (fun _ => Except.ok ()))
      (fun _ => Except.ok ())

/-! ## Tool catalog and dispatcher handlers (src/mcp-server.ts lines 327-619) -/

/-- The environment variables `getCloudId` reads (src/mcp-server.ts lines
327-333). -/
structure CloudEnv where
  jiraCloudId : Option String
  cloudId : Option String

/-- The quote strip `replace` anchored at both ends: remove one leading and
one trailing quote character. -/
def stripOuterQuotes (s : String) : String :=
  let l := s.data
  let l2 :=
    match l with
    | c :: rest => if c = '"' || c = Char.ofNat 39 then rest else l
    | [] => []
  let l3 :=
    match l2.reverse with
    | c :: rest => if c = '"' || c = Char.ofNat 39 then rest.reverse else l2
    | [] => []
  String.mk l3

/-- `getCloudId` (src/mcp-server.ts lines 327-333). -/
def getCloudId (cenv : CloudEnv) : Except String String :=
  match envTruthy (jsOrEnv cenv.jiraCloudId cenv.cloudId) with
  | some s => Except.ok (jsTrim (stripOuterQuotes s))
  | none => Except.error "JIRA_CLOUD_ID not set. Please set it in environment variables."

/-- `(args.cloudId as string) || getCloudId()`. -/
def cloudIdResolve (cenv : CloudEnv) (argCloudId : Option String) : Except String String :=
  match envTruthy argCloudId with
  | some s => Except.ok s
  | none => getCloudId cenv

/-- The arguments of the `createJiraIssueWithBranch` tool. -/
structure CreateIssueArgs where
  cloudId : Option String
  projectKey : Option String
  issueTypeName : Option String
  summary : Option String
  description : Option String
  branchName : Option String
  fields : Option Json

/-- The `createJiraIssueWithBranch` handler (src/mcp-server.ts lines
426-504), modelled through the `createJiraIssue` network boundary: resolve
the cloud id, validate, assemble the creation arguments, call the backend
(`net`), and extract the issue key.  The first component lists the backend
tools actually called; the branch-creation side effect and the final
serialization are outside this model. -/
def createJiraIssueWithBranchHandler (cenv : CloudEnv) (args : CreateIssueArgs)
    (net : String → Json → Except String Json) : List String × Except String Json :=
  match cloudIdResolve cenv args.cloudId with
  | Except.error e => ([], Except.error e)
  | Except.ok cloudIdVal =>
    if blankOpt args.projectKey then
      ([], Except.error "projectKey is required and cannot be empty")
    else if blankOpt args.issueTypeName then
      ([], Except.error "issueTypeName is required and cannot be empty")
    else if blankOpt args.summary then
      ([], Except.error "summary is required and cannot be empty")
    else
      let projectKey := (args.projectKey).getD ""
      let issueTypeName := (args.issueTypeName).getD ""
      let summaryValue := jsTrim ((args.summary).getD "")
      let descriptionValue : Option String :=
        match args.description with
        | some d => if d ≠ "" && jsTrim d ≠ "" then some (jsTrim d) else none
        | none => none
      let extraFields : List (String × Json) :=
        match args.fields with
        | some (Json.obj fs) => fs.filter (fun kv => kv.1 ≠ "summary" && kv.1 ≠ "description")
        | _ => []
      let createArgs := Json.obj
        ([ ("cloudId", Json.str (jsTrim cloudIdVal)),
           ("projectKey", Json.str (jsTrim projectKey)),
           ("issueTypeName", Json.str (jsTrim issueTypeName)),
           ("summary", Json.str summaryValue) ]
          ++ (match descriptionValue with
              | some d => [("description", Json.str d)]
              | none => [])
          ++ (if extraFields.length ≠ 0 then [("fields", Json.obj extraFields)] else []))
      match net "createJiraIssue" createArgs with
      | Except.error e => (["createJiraIssue"], Except.error e)
      | Except.ok res =>
        (["createJiraIssue"],
         Except.ok (Json.obj
           [ ("success", Json.bool true),
             ("issueKey", (handleCreateResponse res).getD Json.null),
             ("data", res) ]))

/-- The assignee-classification step of the `assignJiraIssueWithAnalysis`
handler (src/mcp-server.ts lines 506-526): the `fields` object passed to
`editJiraIssue`. -/
def assignJiraIssueFields (assigneeInput : String) : Json :=
  if jsToLowerStr assigneeInput = "unassign" || assigneeInput = "" then
    Json.obj [("assignee", Json.null)]
  else if strContains assigneeInput "@" then
    Json.obj [("assignee", Json.obj [("emailAddress", Json.str assigneeInput)])]
  else if strContains assigneeInput ":" || 30 < assigneeInput.length then
    Json.obj [("assignee", Json.obj [("accountId", Json.str assigneeInput)])]
  else
    Json.obj [("assignee", Json.obj [("name", Json.str assigneeInput)])]

/-- Spec-side assignee classification, in claim C10's order. -/
inductive AssigneeClass where
  | clearAssignee : AssigneeClass
  | emailPrincipal : String → AssigneeClass
  | accountIdentifier : String → AssigneeClass
  | displayName : String → AssigneeClass

def specClassifyAssignee (s : String) : AssigneeClass :=
  if s = "" || jsToLowerStr s = "unassign" then AssigneeClass.clearAssignee
  else if strContains s "@" then AssigneeClass.emailPrincipal s
  else if strContains s ":" || 30 < s.length then AssigneeClass.accountIdentifier s
  else AssigneeClass.displayName s

/-- The assignee representation each class sets on the edit call. -/
def assigneeClassJson : AssigneeClass → Json
  | AssigneeClass.clearAssignee => Json.obj [("assignee", Json.null)]
  | AssigneeClass.emailPrincipal s => Json.obj [("assignee", Json.obj [("emailAddress", Json.str s)])]
  | AssigneeClass.accountIdentifier s => Json.obj [("assignee", Json.obj [("accountId", Json.str s)])]
  | AssigneeClass.displayName s => Json.obj [("assignee", Json.obj [("name", Json.str s)])]

/-- `(transitionsRes as any)?.transitions || []` (truthy non-array values
are outside the modelled fragment; see `transitionsResWF`). -/
def jiraTransitionsOf (transitionsRes : Json) : List Json :=
  match getField transitionsRes "transitions" with
  | some (Json.arr ts) => ts
  | _ => []

/-- The find predicate of the `transitionJiraIssueToReview` handler:
`t.name?.toLowerCase().includes("review") ||
t.to?.name?.toLowerCase().includes("review")`. -/
def transitionMatchesReview (t : Json) : Bool :=
  (match getField t "name" with
   | some (Json.str s) => strContains (jsToLowerStr s) "review"
   | _ => false) ||
  (match getField t "to" with
   | some toVal =>
     (match getField toVal "name" with
      | some (Json.str s) => strContains (jsToLowerStr s) "review"
      | _ => false)
   | none => false)

/-- The selection-and-execution step of the `transitionJiraIssueToReview`
handler (src/mcp-server.ts lines 541-577), from the fetched transitions
result: on success the value is the `id` sent as `transition: { id }` to
`transitionJiraIssue`. -/
def transitionJiraIssueToReviewHandler (transitionsRes : Json) : Except String (Option Json) :=
  match (jiraTransitionsOf transitionsRes).find? transitionMatchesReview with
  | none => Except.error "No \x27In Review\x27 transition found for this issue"
  | some t => Except.ok (getField t "id")

/-- A `name` field that is absent, null, or a string (the shapes on which
the optional-chained `toLowerCase` call cannot raise). -/
def nameFieldOK (j : Json) : Bool :=
  match getField j "name" with
  | none => true
  | some Json.null => true
  | some (Json.str _) => true
  | _ => false

def transitionWF (t : Json) : Bool :=
  nameFieldOK t &&
    (match getField t "to" with
     | some (Json.obj fs) => nameFieldOK (Json.obj fs)
     | _ => true)

/-- A well-formed transitions result: the `transitions` field is absent,
falsy, or an array of well-formed transitions. -/
def transitionsResWF (transitionsRes : Json) : Bool :=
  match getField transitionsRes "transitions" with
  | none => true
  | some (Json.arr ts) => ts.all transitionWF
  | some v => !jsTruthy v

/-- The `getTransitionsForJiraIssue` case of `callJiraDataCenterTool`
(src/unnamed/part_002 lines 138-148): the REST result, serialized to
`restResultText`, is wrapped in a single-text-block content envelope. -/
def callJiraDataCenterToolGetTransitions (restResultText : String) : Json :=
  Json.obj [("content",
    Json.arr [Json.obj [("type", Json.str "text"), ("text", Json.str restResultText)]])]

example :
    transitionJiraIssueToReviewHandler
      (Json.obj [("transitions", Json.arr
        [ Json.obj [("id", Json.num 1), ("name", Json.str "Done")],
          Json.obj [("id", Json.num 2), ("name", Json.str "In Review")] ])])
      = Except.ok (some (Json.num 2)) := by rfl
example : assignJiraIssueFields "a@b.com"
    = Json.obj [("assignee", Json.obj [("emailAddress", Json.str "a@b.com")])] := by rfl
example : assignJiraIssueFields "unassign" = Json.obj [("assignee", Json.null)] := by rfl

/-! ## Spec-side shape predicates for the sanitizer -/

/-- No two consecutive hyphens. -/
def noDoubleHyphen : List Char → Bool
  | c1 :: c2 :: rest =>
    if c1 = '-' && c2 = '-' then false else noDoubleHyphen (c2 :: rest)
  | _ => true

/-- The anchored pattern `[a-z0-9]+(-[a-z0-9]+)*` of claim C5, characterized
as: nonempty, characters drawn from `[a-z0-9-]`, no leading or trailing
hyphen, no two consecutive hyphens. -/
def matchesBranchPattern (s : String) : Bool :=
  let l := s.data
  !l.isEmpty && l.all (fun c => isLowerAlnum c || c = '-') &&
    l.head?.all (fun c => !(c = '-')) && l.getLast?.all (fun c => !(c = '-')) &&
    noDoubleHyphen l

/-- The characters claim C4 quantifies over: the transliteration table's
domain together with the decimal digits. -/
def cyrDigitChars : List Char := transliterationMap.map Prod.fst ++ "0123456789".data

def coveredCyrDigit (s : String) : Bool := s.data.all (fun c => cyrDigitChars.contains c)

example : matchesBranchPattern "fix-login-bug" = true := by rfl
example : matchesBranchPattern "" = false := by rfl
example : coveredCyrDigit "Баг123" = true := by rfl

/-! ## Helper lemmas -/

theorem tryCatchE_unit_ok (x : Except String Unit) :
    tryCatchE x (fun _ => Except.ok ()) = Except.ok () := by
  cases x with
  | ok a => cases a; rfl
  | error e => rfl

/-! ## Claim C2: branch automation never raises -/

/-- C2.  For every issue key, optional custom branch name, environment, and
combination of successes and failures of the git commands / filesystem checks
/ hosting-API calls (the oracles `fs`, `exec`, `http`), both branch-automation
entry points return normally: neither `createGitLabBranch` (local-git
strategy) nor `createGitHubBranch` (remote-API strategy) propagates an error
to its caller. -/
theorem branch_automation_never_raises (cwd issueKey : String) (custom : Option String)
    (genv : GitEnv) (fs : String → Bool) (exec : String → Except String String)
    (http : HttpReq → Except String String) :
    createGitLabBranch cwd genv fs exec issueKey custom = Except.ok () ∧
    createGitHubBranch genv issueKey custom http = Except.ok () := by
  constructor
  · unfold createGitLabBranch
    cases h1 : fs cwd with
    | false => simp [h1]
    | true =>
      cases h2 : fs (cwd ++ "/.git") with
      | false => simp [h1, h2]
      | true => simp [h1, h2, tryCatchE_unit_ok]
  · unfold createGitHubBranch
    cases envTruthy genv.githubToken with
    | none => rfl
    | some tok =>
      cases envTruthy genv.githubRepo with
      | none => rfl
      | some repo =>
        dsimp only
        cases parseGitHubRepo repo with
        | none => rfl
        | some pr => exact tryCatchE_unit_ok _

/-! ## Claim C8: Data Center transitions envelope never matches -/

/-- C8.  In Direct-API (Data Center) mode the adapter returns the transitions
lookup wrapped in a content-block envelope, while the
`transitionJiraIssueToReview` handler reads `transitions` directly off that
envelope.  The field is never present there, so for every serialized REST
result — hence every set of transitions the tracker reports — the handler
fails with the explicit no-transition error and never executes a
transition. -/
theorem dc_transitions_envelope_always_fails (restResultText : String) :
    transitionJiraIssueToReviewHandler (callJiraDataCenterToolGetTransitions restResultText) =
      Except.error "No \x27In Review\x27 transition found for this issue" := by
  rfl

/-! ## Claim C4: transliteration in `sanitizeBranchName` -/

/-- C4.  Evaluation at the failing input `"щ1"`: the active
`sanitizeBranchName` (src/mcp-server.ts) performs no transliteration and
collapses the Cyrillic letter away, yielding `"1"`, while the
transliterating revision (src/unnamed/part_001: `transliterateToEnglish`
then the same pipeline) yields `"shch1"` as the claim describes. -/
theorem sanitizeBranchName_drops_cyrillic :
    sanitizeBranchName "щ1" = "1" ∧ transliterateToEnglish "щ" = "shch" ∧
    sanitizeBranchNameTranslit "щ1" = "shch1" :=
  ⟨rfl, rfl, rfl⟩

/-! ## Claim C6: shape of extracted issue keys -/

/-- C6, counterexample.  The extraction returns the flat `key` field value
verbatim: on `{key:"hello"}` it returns `"hello"`, which does not match
`[A-Z]+-[0-9]+`, refuting the claim that every non-null extracted key
matches that pattern. -/
theorem handleCreateResponse_key_shape_counterexample :
    handleCreateResponse (Json.obj [("key", Json.str "hello")]) = some (Json.str "hello") ∧
    isIssueKey "hello" = false :=
  ⟨rfl, rfl⟩

/-! ## Claim C10: assignee classification -/

/-- C10.  The `assignJiraIssueWithAnalysis` handler classifies the assignee
by first-match precedence — empty or case-insensitive "unassign" clears the
assignee; else a string containing "@" becomes `{emailAddress}`; else one
containing ":" or longer than 30 characters becomes `{accountId}`;
otherwise `{name}` — and the edit call's `fields` object carries exactly
that representation.  The listed conjuncts are the claim's four examples
(the 32-character token case among them). -/
theorem assignJiraIssueFields_classification :
    (∀ s, assignJiraIssueFields s = assigneeClassJson (specClassifyAssignee s)) ∧
    assignJiraIssueFields "a@b.com" =
      Json.obj [("assignee", Json.obj [("emailAddress", Json.str "a@b.com")])] ∧
    assignJiraIssueFields "abcdefghijklmnopqrstuvwxyz012345" =
      Json.obj [("assignee", Json.obj [("accountId", Json.str "abcdefghijklmnopqrstuvwxyz012345")])] ∧
    assignJiraIssueFields "unassign" = Json.obj [("assignee", Json.null)] ∧
    assignJiraIssueFields "john" =
      Json.obj [("assignee", Json.obj [("name", Json.str "john")])] := by
  refine ⟨?_, rfl, rfl, rfl, rfl⟩
  intro s
  unfold assignJiraIssueFields specClassifyAssignee
  by_cases h1 : jsToLowerStr s = "unassign" <;> by_cases h2 : s = ""
  · simp [h1, h2, assigneeClassJson]
  · simp [h1, h2, assigneeClassJson]
  · simp [h1, h2, assigneeClassJson]
  · by_cases h3 : strContains s "@" = true
    · simp [h1, h2, h3, assigneeClassJson]
    · by_cases h4 : strContains s ":" = true
      · simp [h1, h2, h3, h4, assigneeClassJson]
      · by_cases h5 : 30 < s.length <;>
          simp [h1, h2, h3, h4, h5, assigneeClassJson]

theorem takeWhile_append_sep {p : Char → Bool} :
    ∀ (us : List Char), (∀ x ∈ us, p x = true) → ∀ (c : Char) (t : List Char), p c = false →
      (us ++ c :: t).takeWhile p = us ∧ (us ++ c :: t).dropWhile p = c :: t := by
  intro us
  induction us with
  | nil =>
    intro _ c t hc
    refine ⟨?_, ?_⟩
    · simp [List.takeWhile_cons, hc]
    · simp [List.dropWhile_cons, hc]
  | cons u us2 ih =>
    intro h c t hc
    have hu : p u = true := h u (List.mem_cons_self u us2)
    have hrest : ∀ x ∈ us2, p x = true := fun x hx => h x (List.mem_cons_of_mem u hx)
    obtain ⟨h1, h2⟩ := ih hrest c t hc
    refine ⟨?_, ?_⟩
    · simp [List.takeWhile_cons, hu, h1]
    · simp [List.dropWhile_cons, hu, h2]

theorem matchKeyAt_isIssueKey {l m : List Char} (h : matchKeyAt l = some m) :
    isIssueKey (String.mk m) = true := by
  simp only [matchKeyAt] at h
  by_cases hus : (l.takeWhile isUpperChar).isEmpty
  · simp [hus] at h
  · rw [if_neg (by simp [hus])] at h
    cases hd : l.dropWhile isUpperChar with
    | nil => rw [hd] at h; exact absurd h (by simp)
    | cons c rest2 =>
      rw [hd] at h
      dsimp only at h
      by_cases hc : c = '-'
      · rw [if_pos hc] at h
        by_cases hds : (rest2.takeWhile isDigitChar).isEmpty
        · simp [hds] at h
        · rw [if_neg (by simp [hds])] at h
          have hm : l.takeWhile isUpperChar ++ c :: rest2.takeWhile isDigitChar = m :=
            Option.some.inj h
          subst hm
          subst hc
          have hupper : ∀ x ∈ l.takeWhile isUpperChar, isUpperChar x = true :=
            fun x hx => List.mem_takeWhile_imp hx
          have hdash : isUpperChar '-' = false := by decide
          obtain ⟨ht, hdr⟩ :=
            takeWhile_append_sep (l.takeWhile isUpperChar) hupper '-'
              (rest2.takeWhile isDigitChar) hdash
          simp only [isIssueKey]
          rw [hdr]
          dsimp only
          rw [ht]
          simp only [Bool.and_eq_true, decide_eq_true_eq]
          refine ⟨⟨⟨trivial, by simp [hus]⟩, by simp [hds]⟩, ?_⟩
          exact List.all_eq_true.mpr fun x hx => List.mem_takeWhile_imp hx
      · rw [if_neg hc] at h
        exact absurd h (by simp)

theorem searchKeyAux_isIssueKey :
    ∀ (l m : List Char), searchKeyAux l = some m → isIssueKey (String.mk m) = true := by
  intro l
  induction l with
  | nil => intro m h; simp [searchKeyAux] at h
  | cons c cs ih =>
    intro m h
    unfold searchKeyAux at h
    cases hm : matchKeyAt (c :: cs) with
    | some m2 =>
      rw [hm] at h
      have : m2 = m := Option.some.inj h
      subst this
      exact matchKeyAt_isIssueKey hm
    | none =>
      rw [hm] at h
      exact ih m h

/-! ## Claim C6 (amended): keys from the regex fallback match the pattern -/

/-- C6, amended.  Keys produced by `handleCreateResponse`'s regex fallback
(`firstKeyMatch`, applied when a block's text is not JSON) always match
`[A-Z]+-[0-9]+`; keys read from `key`/`fields.key`/`id`/`issueKey` fields are
returned as-is and need not match (see the counterexample). -/
theorem firstKeyMatch_isIssueKey (s k : String) (h : firstKeyMatch s = some k) :
    isIssueKey k = true := by
  unfold firstKeyMatch at h
  cases hm : searchKeyAux s.data with
  | none => rw [hm] at h; exact absurd h (by simp)
  | some m =>
    rw [hm] at h
    have : String.mk m = k := Option.some.inj h
    subst this
    exact searchKeyAux_isIssueKey s.data m hm

/-- Witness for the amended C6 theorem at a concrete non-JSON text. -/
theorem firstKeyMatch_isIssueKey_witness : isIssueKey "OPS-12" = true :=
  firstKeyMatch_isIssueKey "Created OPS-12 ok" "OPS-12" (by rfl)

/-! ## Shape lemmas for the sanitizer pipeline -/

theorem collapseAux_chars (l : List Char) : ∀ (b : Bool),
    (collapseAux b l).all (fun c => isLowerAlnum c || c = '-') = true := by
  induction l with
  | nil => intro b; rfl
  | cons c t ih =>
    intro b
    unfold collapseAux
    by_cases h : isLowerAlnum c
    · simp [h, ih false]
    · by_cases hb : b = true
      · simp [h, hb, ih true]
      · simp [h, hb, ih true]

theorem collapseAux_head_true (l : List Char) :
    ∀ c, (collapseAux true l).head? = some c → isLowerAlnum c = true := by
  induction l with
  | nil => intro c h; simp [collapseAux] at h
  | cons a t ih =>
    intro c h
    unfold collapseAux at h
    by_cases ha : isLowerAlnum a
    · rw [if_pos ha] at h
      simp only [List.head?_cons, Option.some.injEq] at h
      rw [← h]; exact ha
    · rw [if_neg ha, if_pos rfl] at h
      exact ih c h

theorem noDH_cons {c : Char} {X : List Char} (hX : noDoubleHyphen X = true)
    (h : c ≠ '-' ∨ X.head? ≠ some '-') : noDoubleHyphen (c :: X) = true := by
  cases X with
  | nil => rfl
  | cons c2 r =>
    have hcond : ¬((decide (c = '-') && decide (c2 = '-')) = true) := by
      rcases h with h | h
      · simp [h]
      · have h2 : c2 ≠ '-' := by
          intro e
          exact h (by rw [e]; rfl)
        simp [h2]
    unfold noDoubleHyphen
    rw [if_neg hcond]
    exact hX

theorem collapseAux_noDH (l : List Char) : ∀ (b : Bool),
    noDoubleHyphen (collapseAux b l) = true := by
  induction l with
  | nil => intro b; rfl
  | cons c t ih =>
    intro b
    unfold collapseAux
    by_cases h : isLowerAlnum c
    · rw [if_pos h]
      refine noDH_cons (ih false) (Or.inl ?_)
      intro e
      rw [e] at h
      exact absurd h (by decide)
    · rw [if_neg h]
      by_cases hb : b = true
      · rw [if_pos hb]; exact ih true
      · rw [if_neg hb]
        refine noDH_cons (ih true) (Or.inr ?_)
        intro e
        have := collapseAux_head_true t '-' e
        exact absurd this (by decide)

theorem noDH_tail {c : Char} {l : List Char} (h : noDoubleHyphen (c :: l) = true) :
    noDoubleHyphen l = true := by
  cases l with
  | nil => rfl
  | cons c2 r =>
    unfold noDoubleHyphen at h
    by_cases hc : (decide (c = '-') && decide (c2 = '-')) = true
    · rw [if_pos hc] at h
      exact absurd h (by simp)
    · rw [if_neg hc] at h
      exact h

theorem noDH_dropWhile (p : Char → Bool) (l : List Char) (h : noDoubleHyphen l = true) :
    noDoubleHyphen (l.dropWhile p) = true := by
  induction l with
  | nil => exact h
  | cons c t ih =>
    rw [List.dropWhile_cons]
    by_cases hc : p c = true
    · simp only [hc, if_true]
      exact ih (noDH_tail h)
    · simp only [hc, if_false]
      exact h

theorem noDH_prefix : ∀ (l1 l2 : List Char), noDoubleHyphen (l1 ++ l2) = true →
    noDoubleHyphen l1 = true := by
  intro l1
  induction l1 with
  | nil => intro l2 _; rfl
  | cons c t ih =>
    intro l2 h
    cases t with
    | nil => rfl
    | cons c2 r =>
      have h2 : (if (decide (c = '-') && decide (c2 = '-')) = true then false
          else noDoubleHyphen (c2 :: (r ++ l2))) = true := h
      unfold noDoubleHyphen
      by_cases hc : (decide (c = '-') && decide (c2 = '-')) = true
      · rw [if_pos hc] at h2
        exact absurd h2 (by simp)
      · rw [if_neg hc] at h2
        rw [if_neg hc]
        exact ih l2 h2

theorem trimTrailHyphens_append : ∀ (l : List Char), ∃ t, l = trimTrailHyphens l ++ t := by
  intro l
  induction l with
  | nil => exact ⟨[], rfl⟩
  | cons c rest ih =>
    obtain ⟨t, ht⟩ := ih
    unfold trimTrailHyphens
    cases hr : trimTrailHyphens rest with
    | nil =>
      by_cases hc : c = '-'
      · rw [if_pos hc]
        exact ⟨c :: rest, rfl⟩
      · rw [if_neg hc]
        rw [hr, List.nil_append] at ht
        exact ⟨t, by rw [List.singleton_append, ← ht]⟩
    | cons x xs =>
      rw [hr] at ht
      exact ⟨t, by rw [List.cons_append, ← ht]⟩

theorem head?_trimTrailHyphens (l : List Char) (c : Char)
    (h : (trimTrailHyphens l).head? = some c) : l.head? = some c := by
  cases l with
  | nil => simp [trimTrailHyphens] at h
  | cons a t =>
    unfold trimTrailHyphens at h
    cases hr : trimTrailHyphens t with
    | nil =>
      rw [hr] at h
      by_cases ha : a = '-'
      · rw [if_pos ha] at h; simp at h
      · rw [if_neg ha] at h
        simpa using h
    | cons x xs =>
      rw [hr] at h
      simpa using h

theorem head?_dropWhile_not (p : Char → Bool) :
    ∀ (l : List Char) (c : Char), (l.dropWhile p).head? = some c → p c = false := by
  intro l
  induction l with
  | nil => intro c h; simp at h
  | cons a t ih =>
    intro c h
    rw [List.dropWhile_cons] at h
    by_cases ha : p a = true
    · rw [if_pos ha] at h
      exact ih c h
    · rw [if_neg ha] at h
      simp only [List.head?_cons, Option.some.injEq] at h
      rw [← h]
      cases hpa : p a with
      | false => rfl
      | true => exact absurd hpa ha

theorem mem_of_mem_dropWhileChar (p : Char → Bool) (l : List Char) (x : Char)
    (h : x ∈ l.dropWhile p) : x ∈ l := by
  rw [← List.takeWhile_append_dropWhile (p := p) (l := l)]
  exact List.mem_append_right _ h

theorem mem_of_mem_takeChar (n : Nat) (l : List Char) (x : Char)
    (h : x ∈ l.take n) : x ∈ l := by
  rw [← List.take_append_drop n l]
  exact List.mem_append_left _ h

theorem head?_take_succ (l : List Char) (n : Nat) : (l.take (n + 1)).head? = l.head? := by
  cases l <;> rfl

/-! ## Claim C5: sanitizer output shape -/

/-- C5, counterexample.  `sanitizeBranchName` can return the empty string
(input with no alphanumerics), and the 100-character truncation can cut at a
separator, leaving a trailing hyphen; both outputs violate the claimed
anchored pattern `[a-z0-9]+(-[a-z0-9]+)*`. -/
theorem sanitizeBranchName_pattern_counterexample :
    sanitizeBranchName "" = "" ∧ matchesBranchPattern "" = false ∧
    sanitizeBranchName (String.mk (List.replicate 99 'a' ++ ['!', 'b'])) =
      String.mk (List.replicate 99 'a' ++ ['-']) ∧
    matchesBranchPattern (String.mk (List.replicate 99 'a' ++ ['-'])) = false := by
  refine ⟨rfl, rfl, by decide, by decide⟩

/-- C5, amended.  For every input, `sanitizeBranchName` returns at most 100
characters drawn from `[a-z0-9-]`, never starting with a hyphen and never
containing two consecutive hyphens; the output may be empty and may end with
a single hyphen left by truncation (see the counterexample), and otherwise
matches `[a-z0-9]+(-[a-z0-9]+)*`. -/
theorem sanitizeBranchName_sanitized_shape (s : String) :
    (sanitizeBranchName s).length ≤ 100 ∧
    (sanitizeBranchName s).data.all (fun c => isLowerAlnum c || c = '-') = true ∧
    (sanitizeBranchName s).data.head?.all (fun c => !(c = '-')) = true ∧
    noDoubleHyphen (sanitizeBranchName s).data = true := by
  have hC := collapseAux_chars (s.data.map jsToLowerChar) false
  have hN := collapseAux_noDH (s.data.map jsToLowerChar) false
  obtain ⟨tl, htl⟩ := trimTrailHyphens_append
    (trimLeadHyphens (collapseAux false (s.data.map jsToLowerChar)))
  have hdata : (sanitizeBranchName s).data =
      (trimTrailHyphens (trimLeadHyphens (collapseAux false (s.data.map jsToLowerChar)))).take 100 :=
    rfl
  refine ⟨?_, ?_, ?_, ?_⟩
  · have hlen : (sanitizeBranchName s).length = (sanitizeBranchName s).data.length := rfl
    rw [hlen, hdata]
    exact List.length_take_le _ _
  · rw [hdata]
    refine List.all_eq_true.mpr ?_
    intro x hx
    have hx2 := mem_of_mem_takeChar _ _ _ hx
    have hx3 : x ∈ trimLeadHyphens (collapseAux false (s.data.map jsToLowerChar)) := by
      rw [htl]
      exact List.mem_append_left _ hx2
    have hx4 := mem_of_mem_dropWhileChar _ _ _ hx3
    exact List.all_eq_true.mp hC x hx4
  · rw [hdata]
    cases hh :
        ((trimTrailHyphens (trimLeadHyphens
          (collapseAux false (s.data.map jsToLowerChar)))).take 100).head? with
    | none => rfl
    | some c =>
      have h100 : (100 : Nat) = 99 + 1 := rfl
      rw [h100, head?_take_succ] at hh
      have hh2 := head?_trimTrailHyphens _ _ hh
      have hh3 := head?_dropWhile_not (fun c => c = '-') _ _ hh2
      simp only [Option.all_some]
      simp [hh3]
  · rw [hdata]
    have h2 : noDoubleHyphen
        (trimLeadHyphens (collapseAux false (s.data.map jsToLowerChar))) = true :=
      noDH_dropWhile _ _ hN
    have h3 : noDoubleHyphen
        (trimTrailHyphens (trimLeadHyphens
          (collapseAux false (s.data.map jsToLowerChar)))) = true := by
      refine noDH_prefix _ tl ?_
      rw [← htl]
      exact h2
    refine noDH_prefix _
      ((trimTrailHyphens (trimLeadHyphens
        (collapseAux false (s.data.map jsToLowerChar)))).drop 100) ?_
    rw [List.take_append_drop]
    exact h3

/-! ## Claim C3: the extraction algorithm -/

theorem scanBlocks_eq_spec : ∀ (items : List Json), items.all blockWF = true →
    scanBlocks items = specScanBlocks items := by
  intro items
  induction items with
  | nil => intro _; rfl
  | cons item rest ih =>
    intro h
    simp only [List.all_cons, Bool.and_eq_true] at h
    obtain ⟨h1, h2⟩ := h
    have hrec := ih h2
    by_cases hcond : (isTextBlockType item && jsTruthyField item "text") = true
    · have htr : jsTruthyField item "text" = true := by
        simp only [Bool.and_eq_true] at hcond
        exact hcond.2
      cases hx : getField item "text" with
      | none =>
        exfalso
        rw [jsTruthyField, hx] at htr
        exact absurd htr (by simp [jsTruthyOpt])
      | some v =>
        cases v with
        | str sv =>
          simp only [scanBlocks, specScanBlocks, hcond, if_true, hx, specExtractBlockText]
          cases hp : jsonParse sv with
          | some parsed =>
            simp only [extractKeyFromParsed]
            cases hcv : chainTruthy [getField parsed "key",
                (getField parsed "fields").bind (fun f => getField f "key"),
                getField parsed "id"] with
            | some v2 => simp
            | none => simp [hrec]
          | none =>
            cases hk : firstKeyMatch sv with
            | some k => simp
            | none => simp [hrec]
        | null =>
          exfalso
          rw [jsTruthyField, hx] at htr
          exact absurd htr (by simp [jsTruthyOpt, jsTruthy])
        | bool b =>
          exfalso
          rw [jsTruthyField, hx] at htr
          have hb : b = true := by simpa [jsTruthyOpt, jsTruthy] using htr
          unfold blockWF at h1
          rw [hx, hb] at h1
          exact absurd h1 (by simp [jsTruthy])
        | num n =>
          exfalso
          rw [jsTruthyField, hx] at htr
          have hn : n ≠ 0 := by simpa [jsTruthyOpt, jsTruthy] using htr
          unfold blockWF at h1
          rw [hx] at h1
          simp [jsTruthy, hn] at h1
        | arr xs =>
          exfalso
          unfold blockWF at h1
          rw [hx] at h1
          simp [jsTruthy] at h1
        | obj fs2 =>
          exfalso
          unfold blockWF at h1
          rw [hx] at h1
          simp [jsTruthy] at h1
    · unfold scanBlocks specScanBlocks
      rw [if_neg hcond, if_neg hcond]
      exact hrec

/-- C3.  On well-formed tool results (content blocks carry string texts),
`handleCreateResponse` computes exactly the claimed algorithm
(`specExtractIssueKey`): null on an error flag; otherwise, for content-block
lists, the first value found scanning blocks in order, reading `key`, then
`fields.key`, then `id` from each JSON-parsed text block with the
`[A-Z]+-[0-9]+` regex fallback for non-JSON text; otherwise the flat
`key`/`fields.key`/`id`/`issueKey` priority.  The last three conjuncts are
the claim's concrete examples. -/
theorem handleCreateResponse_matches_spec (res : Json) (h : resWF res = true) :
    handleCreateResponse res = specExtractIssueKey res ∧
    handleCreateResponse (Json.obj [("content", Json.arr [Json.obj [("type", Json.str "text"),
      ("text", Json.str "\x7b\"key\":\"OPS-7\"\x7d")]])]) = some (Json.str "OPS-7") ∧
    handleCreateResponse (Json.obj [("key", Json.str "OPS-9")]) = some (Json.str "OPS-9") ∧
    handleCreateResponse (Json.obj [("isError", Json.bool true)]) = none := by
  refine ⟨?_, rfl, rfl, rfl⟩
  cases res with
  | null => simp [resWF] at h
  | bool b => simp [resWF] at h
  | num n => simp [resWF] at h
  | str s => simp [resWF] at h
  | arr xs => simp [resWF] at h
  | obj fs =>
    unfold handleCreateResponse specExtractIssueKey
    dsimp only
    by_cases herr :
        (jsTruthyField (Json.obj fs) "isError" || jsTruthyField (Json.obj fs) "error") = true
    · rw [if_pos herr, if_pos herr]
    · rw [if_neg herr, if_neg herr]
      cases hc : getField (Json.obj fs) "content" with
      | none => rfl
      | some v =>
        cases v with
        | arr items =>
          have hall : items.all blockWF = true := by
            unfold resWF at h
            rw [hc] at h
            exact h
          exact scanBlocks_eq_spec items hall
        | null => rfl
        | bool b => rfl
        | num n => rfl
        | str s => rfl
        | obj fs2 => rfl

/-- Witness for C3 at a concrete well-formed content-block result. -/
theorem handleCreateResponse_matches_spec_witness :
    resWF (Json.obj [("content", Json.arr [Json.obj [("type", Json.str "text"),
        ("text", Json.str "\x7b\"key\":\"OPS-7\"\x7d")]])]) = true ∧
    handleCreateResponse (Json.obj [("content", Json.arr [Json.obj [("type", Json.str "text"),
        ("text", Json.str "\x7b\"key\":\"OPS-7\"\x7d")]])]) =
      specExtractIssueKey (Json.obj [("content", Json.arr [Json.obj [("type", Json.str "text"),
        ("text", Json.str "\x7b\"key\":\"OPS-7\"\x7d")]])]) :=
  ⟨rfl, (handleCreateResponse_matches_spec (Json.obj [("content",
    Json.arr [Json.obj [("type", Json.str "text"),
      ("text", Json.str "\x7b\"key\":\"OPS-7\"\x7d")]])]) rfl).1⟩

/-! ## Claim C7: transition-to-review selection -/

theorem find?_first {p : Json → Bool} :
    ∀ (l : List Json) (t : Json), l.find? p = some t →
      p t = true ∧ ∃ l1 l2, l = l1 ++ t :: l2 ∧ ∀ u ∈ l1, p u = false := by
  intro l
  induction l with
  | nil => intro t h; simp at h
  | cons a rest ih =>
    intro t h
    by_cases ha : p a = true
    · rw [List.find?_cons_of_pos _ ha] at h
      have hat : a = t := Option.some.inj h
      subst hat
      exact ⟨ha, [], rest, rfl, by intro u hu; cases hu⟩
    · rw [List.find?_cons_of_neg _ ha] at h
      obtain ⟨hp, l1, l2, heq, hall⟩ := ih t h
      refine ⟨hp, a :: l1, l2, by rw [heq]; rfl, ?_⟩
      intro u hu
      rcases List.mem_cons.mp hu with hu | hu
      · subst hu
        cases hpa : p u with
        | false => rfl
        | true => exact absurd hpa ha
      · exact hall u hu

/-- C7.  From the fetched transitions of a well-formed result, the handler
selects the first transition whose `name` or target (`to`) status name
contains "review" case-insensitively and executes it by its `id`; when none
matches it fails with the explicit error.  The last conjunct is the claim's
example (Done / In Review selects id 2). -/
theorem transitionJiraIssueToReview_selects_first_review (res : Json)
    (_hwf : transitionsResWF res = true) :
    (∀ idv, transitionJiraIssueToReviewHandler res = Except.ok idv →
      ∃ t l1 l2, jiraTransitionsOf res = l1 ++ t :: l2 ∧ transitionMatchesReview t = true ∧
        (∀ u ∈ l1, transitionMatchesReview u = false) ∧ idv = getField t "id") ∧
    ((∀ t ∈ jiraTransitionsOf res, transitionMatchesReview t = false) →
      transitionJiraIssueToReviewHandler res =
        Except.error "No \x27In Review\x27 transition found for this issue") ∧
    transitionJiraIssueToReviewHandler
      (Json.obj [("transitions", Json.arr
        [ Json.obj [("id", Json.num 1), ("name", Json.str "Done")],
          Json.obj [("id", Json.num 2), ("name", Json.str "In Review")] ])])
      = Except.ok (some (Json.num 2)) := by
  refine ⟨?_, ?_, rfl⟩
  · intro idv h
    unfold transitionJiraIssueToReviewHandler at h
    cases hf : (jiraTransitionsOf res).find? transitionMatchesReview with
    | none => rw [hf] at h; exact absurd h (by simp)
    | some t =>
      rw [hf] at h
      obtain ⟨hp, l1, l2, heq, hall⟩ := find?_first _ t hf
      exact ⟨t, l1, l2, heq, hp, hall, (Except.ok.inj h).symm⟩
  · intro hnone
    unfold transitionJiraIssueToReviewHandler
    have hf : (jiraTransitionsOf res).find? transitionMatchesReview = none :=
      List.find?_eq_none.mpr (fun x hx => by simp [hnone x hx])
    rw [hf]

/-- Witness for C7 at the claim's example transitions. -/
theorem transitionJiraIssueToReview_selects_first_review_witness :
    transitionJiraIssueToReviewHandler
      (Json.obj [("transitions", Json.arr
        [ Json.obj [("id", Json.num 1), ("name", Json.str "Done")],
          Json.obj [("id", Json.num 2), ("name", Json.str "In Review")] ])])
      = Except.ok (some (Json.num 2)) :=
  (transitionJiraIssueToReview_selects_first_review
    (Json.obj [("transitions", Json.arr
      [ Json.obj [("id", Json.num 1), ("name", Json.str "Done")],
        Json.obj [("id", Json.num 2), ("name", Json.str "In Review")] ])]) rfl).2.2

/-! ## Claim C9: validation before any network call -/

/-- C9, counterexample.  The handler resolves the cloud id before
validating, so a call with a blank `projectKey`, no `cloudId` argument and no
cloud id in the environment fails with the `JIRA_CLOUD_ID` configuration
error — not with a validation error naming the offending field as the claim
states.  (No network call is attempted either way.) -/
theorem createJiraIssueWithBranch_cloudid_before_validation :
    createJiraIssueWithBranchHandler
      { jiraCloudId := none, cloudId := none }
      { cloudId := none, projectKey := some "", issueTypeName := some "Task",
        summary := some "s", description := none, branchName := none, fields := none }
      (fun _ _ => Except.ok Json.null)
      = ([], Except.error "JIRA_CLOUD_ID not set. Please set it in environment variables.") ∧
    "JIRA_CLOUD_ID not set. Please set it in environment variables." ≠
      "projectKey is required and cannot be empty" :=
  ⟨rfl, by decide⟩

/-- C9, amended.  For every `createJiraIssueWithBranch` call with
`projectKey`, `issueTypeName`, or `summary` missing or blank after trimming:
when the cloud id resolves (truthy `cloudId` argument, or
`JIRA_CLOUD_ID`/`CLOUD_ID` in the environment) the handler fails with the
validation error naming the first offending field in check order; when it
does not resolve, the handler fails even earlier with the cloud-id
configuration error instead.  In both cases the backend-call list is empty:
no network call (in particular no issue creation) precedes the failure. -/
theorem createJiraIssueWithBranch_validates_before_network (cenv : CloudEnv)
    (args : CreateIssueArgs) (net : String → Json → Except String Json) :
    (∀ c, cloudIdResolve cenv args.cloudId = Except.ok c →
      (blankOpt args.projectKey = true →
        createJiraIssueWithBranchHandler cenv args net =
          ([], Except.error "projectKey is required and cannot be empty")) ∧
      (blankOpt args.projectKey = false → blankOpt args.issueTypeName = true →
        createJiraIssueWithBranchHandler cenv args net =
          ([], Except.error "issueTypeName is required and cannot be empty")) ∧
      (blankOpt args.projectKey = false → blankOpt args.issueTypeName = false →
        blankOpt args.summary = true →
        createJiraIssueWithBranchHandler cenv args net =
          ([], Except.error "summary is required and cannot be empty"))) ∧
    (∀ e, cloudIdResolve cenv args.cloudId = Except.error e →
      createJiraIssueWithBranchHandler cenv args net = ([], Except.error e)) := by
  constructor
  · intro c hc
    unfold createJiraIssueWithBranchHandler
    rw [hc]
    dsimp only
    refine ⟨?_, ?_, ?_⟩
    · intro h1
      rw [if_pos h1]
    · intro h1 h2
      rw [if_neg (by simp [h1]), if_pos h2]
    · intro h1 h2 h3
      rw [if_neg (by simp [h1]), if_neg (by simp [h2]), if_pos h3]
  · intro e he
    unfold createJiraIssueWithBranchHandler
    rw [he]

/-- Witness for the amended C9: blank project key with the cloud id resolved
from the environment. -/
theorem createJiraIssueWithBranch_validates_before_network_witness :
    createJiraIssueWithBranchHandler
      { jiraCloudId := some "cid-1", cloudId := none }
      { cloudId := none, projectKey := some "  ", issueTypeName := some "Task",
        summary := some "s", description := none, branchName := none, fields := none }
      (fun _ _ => Except.ok Json.null)
      = ([], Except.error "projectKey is required and cannot be empty") :=
  ((createJiraIssueWithBranch_validates_before_network
    { jiraCloudId := some "cid-1", cloudId := none }
    { cloudId := none, projectKey := some "  ", issueTypeName := some "Task",
      summary := some "s", description := none, branchName := none, fields := none }
    (fun _ _ => Except.ok Json.null)).1 "cid-1" (by rfl)).1 (by rfl)

/-! ## Claim C1: Data Center authentication resolution -/

theorem normOptStr_some {x : String} (h : normOptStr (some x) = true) :
    jsTrim x = x ∧ x ≠ "" := by
  simp only [normOptStr, Bool.and_eq_true, decide_eq_true_eq] at h
  exact h

/-- C1.  With a configured base URL (Direct-API mode) and normalized
environment values, authentication is resolved deterministically on each
call: a personal access token with no legacy API token puts
`Bearer <token>` on the single request issued; otherwise a legacy API token
together with a username/email puts `Basic base64(user:token)` (the user
being the configured email, else username) on the single request; in every
remaining configuration the call fails before any HTTP request is issued.
The first two conjuncts also show the schemes are never mixed: each call
carries exactly one `Authorization` value. -/
theorem callJiraDataCenterAPI_auth_resolution (env : DCEnv) (endpoint method : String)
    (body : Option Json) (http : HttpReq → Except String String)
    (hnorm : dcEnvNormalized env = true) (b : String) (hbase : env.jiraBaseUrl = some b) :
    (∀ p, env.jiraPersonalAccessToken = some p → env.jiraApiToken = none →
      (callJiraDataCenterAPI env endpoint method body http).1.map HttpReq.authorization
        = ["Bearer " ++ p]) ∧
    (∀ t, env.jiraApiToken = some t →
      (env.jiraUsername ≠ none ∨ env.jiraEmail ≠ none) →
      ∃ u, dcAuthUsername env = some u ∧
        (callJiraDataCenterAPI env endpoint method body http).1.map HttpReq.authorization
          = ["Basic " ++ base64Encode (u ++ ":" ++ t)]) ∧
    ((env.jiraPersonalAccessToken = none ∨ env.jiraApiToken ≠ none) →
      (env.jiraApiToken = none ∨ (env.jiraUsername = none ∧ env.jiraEmail = none)) →
      (callJiraDataCenterAPI env endpoint method body http).1 = [] ∧
      ∃ msg, (callJiraDataCenterAPI env endpoint method body http).2 = Except.error msg) := by
  obtain ⟨bu, apiTok, pat, un, em⟩ := env
  have hbase2 : bu = some b := hbase
  subst hbase2
  simp only [dcEnvNormalized, Bool.and_eq_true] at hnorm
  obtain ⟨⟨⟨⟨hnb, hnat⟩, hnpat⟩, hnun⟩, hnem⟩ := hnorm
  obtain ⟨hb1, hb2⟩ := normOptStr_some hnb
  refine ⟨?_, ?_, ?_⟩
  · intro p hp hn
    have hp2 : pat = some p := hp
    have hn2 : apiTok = none := hn
    subst hp2
    subst hn2
    obtain ⟨hp1, hpne⟩ := normOptStr_some hnpat
    simp [callJiraDataCenterAPI, jsOrEnv, envTruthy, hb1, hb2, hp1, hpne]
  · intro t ht hcfg
    have ht2 : apiTok = some t := ht
    subst ht2
    obtain ⟨ht1, htne⟩ := normOptStr_some hnat
    rcases em with _ | e
    · rcases un with _ | u
      · exfalso
        rcases hcfg with h | h <;> exact h rfl
      · obtain ⟨hu1, hune⟩ := normOptStr_some hnun
        refine ⟨u, ?_, ?_⟩
        · simp [dcAuthUsername, jsOrEnv, envTruthy, hune]
        · simp [callJiraDataCenterAPI, dcAuthUsername, jsOrEnv, envTruthy, blankOpt,
            hb1, hb2, ht1, htne, hu1, hune]
    · obtain ⟨he1, hene⟩ := normOptStr_some hnem
      rcases un with _ | u
      · refine ⟨e, ?_, ?_⟩
        · simp [dcAuthUsername, jsOrEnv, envTruthy, hene]
        · simp [callJiraDataCenterAPI, dcAuthUsername, jsOrEnv, envTruthy, blankOpt,
            hb1, hb2, ht1, htne, he1, hene]
      · obtain ⟨hu1, hune⟩ := normOptStr_some hnun
        refine ⟨e, ?_, ?_⟩
        · simp [dcAuthUsername, jsOrEnv, envTruthy, hene]
        · simp [callJiraDataCenterAPI, dcAuthUsername, jsOrEnv, envTruthy, blankOpt,
            hb1, hb2, ht1, htne, he1, hene, hu1, hune]
  · intro hA hB
    rcases apiTok with _ | t
    · have hpat : pat = none := by
        rcases hA with h | h
        · exact h
        · exact absurd rfl h
      subst hpat
      constructor
      · simp [callJiraDataCenterAPI, jsOrEnv, envTruthy, hb1, hb2]
      · refine ⟨"JIRA_API_TOKEN or JIRA_PERSONAL_ACCESS_TOKEN is required for Data Center. Please set one of these environment variables with your API token.", ?_⟩
        simp [callJiraDataCenterAPI, jsOrEnv, envTruthy, hb1, hb2]
    · obtain ⟨hun, hem⟩ : un = none ∧ em = none := by
        rcases hB with h | h
        · exact absurd h (by simp)
        · exact h
      subst hun
      subst hem
      obtain ⟨ht1, htne⟩ := normOptStr_some hnat
      constructor
      · simp [callJiraDataCenterAPI, jsOrEnv, envTruthy, blankOpt, hb1, hb2, ht1, htne]
      · refine ⟨"JIRA_USERNAME or JIRA_EMAIL is required for Data Center authentication when using API Token. For Personal Access Token, only JIRA_PERSONAL_ACCESS_TOKEN is needed.", ?_⟩
        simp [callJiraDataCenterAPI, jsOrEnv, envTruthy, blankOpt, hb1, hb2, ht1, htne]

/-- Witness for C1: a personal-access-token-only environment resolves to the
Bearer scheme on the single issued request. -/
theorem callJiraDataCenterAPI_auth_resolution_witness :
    (callJiraDataCenterAPI
      { jiraBaseUrl := some "https://jira.example.com", jiraApiToken := none,
        jiraPersonalAccessToken := some "pat123", jiraUsername := none, jiraEmail := none }
      "issue/OPS-1" "GET" none (fun _ => Except.ok "")).1.map HttpReq.authorization
      = ["Bearer pat123"] := by
  have h := (callJiraDataCenterAPI_auth_resolution
    { jiraBaseUrl := some "https://jira.example.com", jiraApiToken := none,
      jiraPersonalAccessToken := some "pat123", jiraUsername := none, jiraEmail := none }
    "issue/OPS-1" "GET" none (fun _ => Except.ok "") (by rfl) "https://jira.example.com"
    rfl).1 "pat123" rfl rfl
  simpa using h
